import Mathlib

/-!
Verification of the duskrunner/xyflow core package slice: the DOM
event-dispatch helpers of the old and new ReactFlow containers, the
hover decorator, the node wrapper, keyboard accessibility, the
configuration surface of the ReactFlow component, and the edge routers.
Definitions are shallow embeddings of the TypeScript source in
src/packages/core/src/index.ts; definitions for repository code that is
not part of the sampled slice are marked as modelled from the spec.
-/

namespace XYFlow

/-! ## DOM model for the event-dispatch helpers

A DOM element is modelled by an identity (for reference comparison with
the listening element) and its data attributes: data-eltype,
data-nodedata and data-edgedata.  A mouse event carries the target
element, the chain of its ancestors (nearest first) and the identity of
the listening element (event.currentTarget). -/

structure Dataset where
  eltype : Option String
  nodedata : Option String
  edgedata : Option String
deriving DecidableEq, Repr

structure Elem where
  elId : Nat
  dataset : Dataset
deriving DecidableEq, Repr

structure MouseEv where
  target : Elem
  ancestors : List Elem
  listeningId : Nat
deriving DecidableEq, Repr

/-- JavaScript truthiness of an optional string attribute: undefined and
the empty string are falsy. -/
def truthy : Option String → Bool
  | none => false
  | some s => s != ""

/-- New container findNodeOrEdge (source lines 674-681): walk up from
the target until an element with a truthy data-eltype is found; stop
with null at a missing parent or at the listening element. -/
def findNodeOrEdge (node : Elem) (ancestors : List Elem) (listeningId : Nat) : Option Elem :=
  if truthy node.dataset.eltype then some node
  else
    match ancestors with
    | [] => none
    | p :: rest => if p.elId = listeningId then none else findNodeOrEdge p rest listeningId

/-- Console log entries produced by the old container helpers. -/
inductive LogEntry where
  | logElType (e : Option String)
  | logParent (p : Option Elem)
  | logData (d : Option Elem)
  | logNode (s : String)
  | logEdge (s : String)
deriving DecidableEq, Repr

/-- Old container findNodeOrEdge (source lines 300-309): same walk, but
logging the eltype and the parent element on the way.  Returns the
found element together with the emitted log. -/
def findNodeOrEdgeOld (node : Elem) (ancestors : List Elem) (listeningId : Nat) :
    Option Elem × List LogEntry :=
  let l1 := LogEntry.logElType node.dataset.eltype
  if truthy node.dataset.eltype then (some node, [l1])
  else
    let l2 := LogEntry.logParent ancestors.head?
    match ancestors with
    | [] => (none, [l1, l2])
    | p :: rest =>
      if p.elId = listeningId then (none, [l1, l2])
      else
        let r := findNodeOrEdgeOld p rest listeningId
        (r.1, l1 :: l2 :: r.2)

/-- A callback invocation of the decorated handler.  The payload is the
raw serialized attribute string; JSON.parse is a deterministic function
of that string, so equal payloads mean the callback receives the same
parsed record. -/
inductive Call where
  | nodeCall (s : String)
  | edgeCall (s : String)
deriving DecidableEq, Repr

/-- New container eventHandlersDecorator (source lines 683-710): resolve
the nearest annotated ancestor and dispatch to the node or the edge
callback depending on data-eltype, provided the matching serialized
data attribute is truthy.  The two booleans state whether the node and
the edge callback were supplied.  The result is the ordered list of
callback invocations the handler performs. -/
def eventHandlersDecorator (hasNodeCb hasEdgeCb : Bool) (event : MouseEv) : List Call :=
  if !hasNodeCb && !hasEdgeCb then []
  else
    match findNodeOrEdge event.target event.ancestors event.listeningId with
    | none => []
    | some data =>
      let elType := data.dataset.eltype
      if elType == some "node" && hasNodeCb then
        match data.dataset.nodedata with
        | some s => if s != "" then [Call.nodeCall s] else []
        | none => []
      else if elType == some "edge" && hasEdgeCb then
        match data.dataset.edgedata with
        | some s => if s != "" then [Call.edgeCall s] else []
        | none => []
      else []

/-- Old container eventHandlersDecorator (source lines 311-340): same
dispatch, with console logging of the resolved element and the parsed
record. -/
def eventHandlersDecoratorOld (hasNodeCb hasEdgeCb : Bool) (event : MouseEv) :
    List Call × List LogEntry :=
  if !hasNodeCb && !hasEdgeCb then ([], [])
  else
    let found := findNodeOrEdgeOld event.target event.ancestors event.listeningId
    let dataLog := LogEntry.logData found.1
    match found.1 with
    | none => ([], found.2 ++ [dataLog])
    | some data =>
      let elType := data.dataset.eltype
      if elType == some "node" && hasNodeCb then
        match data.dataset.nodedata with
        | some s =>
          if s != "" then ([Call.nodeCall s], found.2 ++ [dataLog, LogEntry.logNode s])
          else ([], found.2 ++ [dataLog])
        | none => ([], found.2 ++ [dataLog])
      else if elType == some "edge" && hasEdgeCb then
        match data.dataset.edgedata with
        | some s =>
          if s != "" then ([Call.edgeCall s], found.2 ++ [dataLog, LogEntry.logEdge s])
          else ([], found.2 ++ [dataLog])
        | none => ([], found.2 ++ [dataLog])
      else ([], found.2 ++ [dataLog])

theorem findNodeOrEdgeOld_fst (node : Elem) (ancestors : List Elem) (listeningId : Nat) :
    (findNodeOrEdgeOld node ancestors listeningId).1 = findNodeOrEdge node ancestors listeningId := by
  induction ancestors generalizing node with
  | nil =>
    rw [findNodeOrEdgeOld, findNodeOrEdge]
    by_cases h : truthy node.dataset.eltype
    · rw [if_pos h, if_pos h]
    · rw [if_neg h, if_neg h]
  | cons p rest ih =>
    rw [findNodeOrEdgeOld, findNodeOrEdge]
    by_cases h : truthy node.dataset.eltype
    · rw [if_pos h, if_pos h]
    · rw [if_neg h, if_neg h]
      by_cases hp : p.elId = listeningId
      · simp only [if_pos hp]
      · simp only [if_neg hp, ih]

/-- C1: the old and new container event-dispatch helpers are
extensionally equal.  For every element (target plus ancestor chain and
data attributes) the old findNodeOrEdge, which also logs to the
console, resolves the same element or null as the new findNodeOrEdge,
and for every mouse event the old and new eventHandlersDecorator
perform exactly the same callback invocations with the same serialized
record, so the rewrite preserves click, double-click, context-menu and
mouse-move dispatch behaviour. -/
theorem old_new_dispatch_equivalent (hasNodeCb hasEdgeCb : Bool) (event : MouseEv) :
    (findNodeOrEdgeOld event.target event.ancestors event.listeningId).1 =
      findNodeOrEdge event.target event.ancestors event.listeningId ∧
    (eventHandlersDecoratorOld hasNodeCb hasEdgeCb event).1 =
      eventHandlersDecorator hasNodeCb hasEdgeCb event := by
  refine ⟨findNodeOrEdgeOld_fst _ _ _, ?_⟩
  simp only [eventHandlersDecoratorOld, eventHandlersDecorator, findNodeOrEdgeOld_fst]
  by_cases hcb : (!hasNodeCb && !hasEdgeCb) = true
  · simp [hcb]
  · simp only [hcb, Bool.false_eq_true, if_false]
    cases hfind : findNodeOrEdge event.target event.ancestors event.listeningId with
    | none => rfl
    | some data =>
      by_cases h1 : (data.dataset.eltype == some "node" && hasNodeCb) = true
      · cases hnd : data.dataset.nodedata with
        | none => simp [h1, hnd]
        | some s => simp [h1, hnd, apply_ite]
      · by_cases h2 : (data.dataset.eltype == some "edge" && hasEdgeCb) = true
        · cases hed : data.dataset.edgedata with
          | none => simp [h1, h2, hed]
          | some s => simp [h1, h2, hed, apply_ite]
        · simp [h1, h2]

/-- C2: the handler produced by the new eventHandlersDecorator invokes
at most one of the two callbacks; the node callback fires exactly when
it is supplied and the nearest ancestor annotated with an element type
has type node and carries a non-empty serialized node-data attribute;
the edge callback fires exactly when it is supplied and that ancestor
has type edge and carries a non-empty serialized edge-data attribute;
otherwise no callback fires, and when neither callback is supplied the
handler returns without any effect. -/
theorem eventHandlersDecorator_dispatch (hasNodeCb hasEdgeCb : Bool) (event : MouseEv) :
    (eventHandlersDecorator hasNodeCb hasEdgeCb event).length ≤ 1 ∧
    (∀ s, Call.nodeCall s ∈ eventHandlersDecorator hasNodeCb hasEdgeCb event ↔
      hasNodeCb = true ∧
        ∃ d, findNodeOrEdge event.target event.ancestors event.listeningId = some d ∧
          d.dataset.eltype = some "node" ∧ d.dataset.nodedata = some s ∧ s ≠ "") ∧
    (∀ s, Call.edgeCall s ∈ eventHandlersDecorator hasNodeCb hasEdgeCb event ↔
      hasEdgeCb = true ∧
        ∃ d, findNodeOrEdge event.target event.ancestors event.listeningId = some d ∧
          d.dataset.eltype = some "edge" ∧ d.dataset.edgedata = some s ∧ s ≠ "") ∧
    (hasNodeCb = false → hasEdgeCb = false →
      eventHandlersDecorator hasNodeCb hasEdgeCb event = []) := by
  simp only [eventHandlersDecorator]
  by_cases hcb : (!hasNodeCb && !hasEdgeCb) = true
  · rcases Bool.and_eq_true_iff.mp hcb with ⟨hn, he⟩
    have hn' : hasNodeCb = false := by simpa using hn
    have he' : hasEdgeCb = false := by simpa using he
    subst hn'
    subst he'
    simp
  · simp only [hcb, Bool.false_eq_true, if_false]
    cases hfind : findNodeOrEdge event.target event.ancestors event.listeningId with
    | none =>
      exact ⟨by simp, by simp, by simp, fun _ _ => rfl⟩
    | some data =>
      by_cases h1 : (data.dataset.eltype == some "node" && hasNodeCb) = true
      · rcases Bool.and_eq_true_iff.mp h1 with ⟨het, hn⟩
        have het' : data.dataset.eltype = some "node" := by
          simpa using het
        cases hnd : data.dataset.nodedata with
        | none => simp [h1, hnd, het', hn]
        | some s =>
          by_cases hs : (s != "") = true
          · have hs' : s ≠ "" := by simpa using hs
            simp [h1, hnd, hs, het', hn, hs', eq_comm]
          · have hs' : s = "" := by simpa using hs
            simp [h1, hnd, hs, het', hn, hs']
      · by_cases h2 : (data.dataset.eltype == some "edge" && hasEdgeCb) = true
        · rcases Bool.and_eq_true_iff.mp h2 with ⟨het, he⟩
          have het' : data.dataset.eltype = some "edge" := by
            simpa using het
          cases hed : data.dataset.edgedata with
          | none => simp [h1, h2, hed, het', he]
          | some s =>
            by_cases hs : (s != "") = true
            · have hs' : s ≠ "" := by simpa using hs
              simp [h1, h2, hed, hs, het', he, hs', eq_comm]
            · have hs' : s = "" := by simpa using hs
              simp [h1, h2, hed, hs, het', he, hs']
        · have hno : ¬(data.dataset.eltype = some "node" ∧ hasNodeCb = true) := by
            intro hc
            exact h1 (by simp [hc.1, hc.2])
          have hed : ¬(data.dataset.eltype = some "edge" ∧ hasEdgeCb = true) := by
            intro hc
            exact h2 (by simp [hc.1, hc.2])
          simp only [h1, h2, Bool.false_eq_true, if_false]
          refine ⟨by simp, ?_, ?_, fun _ _ => by simp⟩
          · intro s
            simp only [List.not_mem_nil, false_iff]
            rintro ⟨hn, d, hd, hdn, -⟩
            cases hd
            exact hno ⟨hdn, hn⟩
          · intro s
            simp only [List.not_mem_nil, false_iff]
            rintro ⟨hn, d, hd, hdn, -⟩
            cases hd
            exact hed ⟨hdn, hn⟩

/-- C2 witness: concrete evaluation of the dispatch characterization on
an event whose target carries a node annotation. -/
theorem eventHandlersDecorator_dispatch_witness :
    (eventHandlersDecorator true true
      ⟨⟨0, ⟨some "node", some "idA", none⟩⟩, [], 7⟩).length ≤ 1 ∧
    (∀ s, Call.nodeCall s ∈ eventHandlersDecorator true true
        ⟨⟨0, ⟨some "node", some "idA", none⟩⟩, [], 7⟩ ↔
      true = true ∧
        ∃ d, findNodeOrEdge ⟨0, ⟨some "node", some "idA", none⟩⟩ [] 7 = some d ∧
          d.dataset.eltype = some "node" ∧ d.dataset.nodedata = some s ∧ s ≠ "") ∧
    (∀ s, Call.edgeCall s ∈ eventHandlersDecorator true true
        ⟨⟨0, ⟨some "node", some "idA", none⟩⟩, [], 7⟩ ↔
      true = true ∧
        ∃ d, findNodeOrEdge ⟨0, ⟨some "node", some "idA", none⟩⟩ [] 7 = some d ∧
          d.dataset.eltype = some "edge" ∧ d.dataset.edgedata = some s ∧ s ≠ "") ∧
    (true = false → true = false →
      eventHandlersDecorator true true ⟨⟨0, ⟨some "node", some "idA", none⟩⟩, [], 7⟩ = []) :=
  eventHandlersDecorator_dispatch true true ⟨⟨0, ⟨some "node", some "idA", none⟩⟩, [], 7⟩

/-! ## Hover decorator of the new container

The new container tracks the currently hovered node or edge in a React
state cell and decorates the mouse-over handler so that leave callbacks
fire when the hovered element changes.  JSON.parse is modelled by an
arbitrary function producing the parsed record (its id field is the one
the code reads); the raw field keeps the serialized string. -/

structure ElVal where
  id : String
  raw : String
deriving DecidableEq, Repr

structure Hovered where
  elType : Option String
  el : Option ElVal
deriving DecidableEq, Repr

inductive HoverCall where
  | nodeEnter (v : Option ElVal)
  | edgeEnter (v : Option ElVal)
  | nodeLeave (v : Option ElVal)
  | edgeLeave (v : Option ElVal)
deriving DecidableEq, Repr

/-- Body of the handler built by hoverEventHandlersDecorator (source
lines 835-887), reading the hover state st captured by its closure.
The four booleans state which of the enter and leave callbacks were
supplied.  The first component is the argument of the setCurrentHovered
invocation, if the handler performs one; the second is the ordered list
of callback invocations. -/
def hoverStepCore (hasNodeEnter hasEdgeEnter hasNodeLeave hasEdgeLeave : Bool)
    (parse : String → ElVal) (st : Hovered) (ev : MouseEv) :
    Option Hovered × List HoverCall :=
  if !hasNodeEnter && !hasEdgeEnter then (none, [])
  else
    match findNodeOrEdge ev.target ev.ancestors ev.listeningId with
    | none =>
      if hasEdgeLeave && st.elType == some "edge" then
        (some ⟨none, none⟩, [HoverCall.edgeLeave st.el])
      else if hasNodeLeave && st.elType == some "node" then
        (some ⟨none, none⟩, [HoverCall.nodeLeave st.el])
      else (none, [])
    | some data =>
      let elType := data.dataset.eltype
      if elType == some "node" && hasNodeEnter then
        match data.dataset.nodedata with
        | some s =>
          if s != "" then
            let node := parse s
            let leaves :=
              if elType != st.elType && hasEdgeLeave && st.el.isSome then
                [HoverCall.edgeLeave st.el]
              else if st.el.isSome && (st.el.map ElVal.id != some node.id) && hasNodeLeave then
                [HoverCall.nodeLeave st.el]
              else []
            (some ⟨elType, some node⟩, leaves ++ [HoverCall.nodeEnter (some node)])
          else (none, [])
        | none => (none, [])
      else if elType == some "edge" && hasEdgeEnter then
        match data.dataset.edgedata with
        | some s =>
          if s != "" then
            let edge := parse s
            let leaves :=
              if st.el.isSome && elType != st.elType && hasNodeLeave then
                [HoverCall.nodeLeave st.el]
              else if st.el.isSome && (st.el.map ElVal.id != some edge.id) && hasEdgeLeave then
                [HoverCall.edgeLeave st.el]
              else []
            (some ⟨elType, some edge⟩, leaves ++ [HoverCall.edgeEnter (some edge)])
          else (none, [])
        | none => (none, [])
      else (none, [])

/-- One mouse-over event as the new container actually dispatches it:
onElMouseEnter (source lines 896-899) is memoized by useCallback whose
dependency list names only onNodeMouseEnter and onEdgeMouseEnter and
omits hoverEventHandlersDecorator, which is recreated whenever
currentHovered changes.  With stable user callbacks the attached
handler therefore keeps the closure of the first render, in which
currentHovered is the initial state with null elType and null el, while
the stable setCurrentHovered setter still updates the real state cell.
All four callbacks are taken as supplied. -/
def onElMouseEnterStep (parse : String → ElVal) (actual : Hovered) (ev : MouseEv) :
    Hovered × List HoverCall :=
  let r := hoverStepCore true true true true parse ⟨none, none⟩ ev
  (r.1.getD actual, r.2)

/-- Run of the memoized mouse-over handler over a sequence of events,
threading the real state cell and concatenating the callback
invocations. -/
def onElMouseEnterRun (parse : String → ElVal) :
    Hovered → List MouseEv → Hovered × List HoverCall
  | st, [] => (st, [])
  | st, ev :: rest =>
    let r := onElMouseEnterStep parse st ev
    let rr := onElMouseEnterRun parse r.1 rest
    (rr.1, r.2 ++ rr.2)

/-- One mouse-over event under a fresh closure, i.e. the decorator body
reading the current hover state, as the dependency lists of the inner
useCallback intend. -/
def hoverStep (parse : String → ElVal) (st : Hovered) (ev : MouseEv) :
    Hovered × List HoverCall :=
  let r := hoverStepCore true true true true parse st ev
  (r.1.getD st, r.2)

/-- Run of the fresh-closure semantics over a sequence of events. -/
def hoverRun (parse : String → ElVal) :
    Hovered → List MouseEv → Hovered × List HoverCall
  | st, [] => (st, [])
  | st, ev :: rest =>
    let r := hoverStep parse st ev
    let rr := hoverRun parse r.1 rest
    (rr.1, r.2 ++ rr.2)

/-- C3 (code bug): hovering node a and then node b through the handler
the new container actually attaches fires the node enter callback for
both nodes but never fires any leave callback, because the memoized
onElMouseEnter keeps the first-render closure where currentHovered is
null; the recorded hover state nonetheless advances to node b.  The
claimed leave-before-enter discipline therefore fails on the wired-up
container. -/
theorem hover_leave_never_fires :
    onElMouseEnterRun (fun s => ⟨s, s⟩) ⟨none, none⟩
      [⟨⟨1, ⟨some "node", some "a", none⟩⟩, [], 0⟩,
       ⟨⟨2, ⟨some "node", some "b", none⟩⟩, [], 0⟩] =
    (⟨some "node", some ⟨"b", "b"⟩⟩,
      [HoverCall.nodeEnter (some ⟨"a", "a"⟩), HoverCall.nodeEnter (some ⟨"b", "b"⟩)]) := by
  rfl

/-- Under the fresh-closure semantics the decorator body does implement
the claimed discipline on the same input: the leave callback for node a
fires before the enter callback for node b. -/
theorem hover_fresh_closure_fires_leave :
    hoverRun (fun s => ⟨s, s⟩) ⟨none, none⟩
      [⟨⟨1, ⟨some "node", some "a", none⟩⟩, [], 0⟩,
       ⟨⟨2, ⟨some "node", some "b", none⟩⟩, [], 0⟩] =
    (⟨some "node", some ⟨"b", "b"⟩⟩,
      [HoverCall.nodeEnter (some ⟨"a", "a"⟩), HoverCall.nodeLeave (some ⟨"a", "a"⟩),
       HoverCall.nodeEnter (some ⟨"b", "b"⟩)]) := by
  rfl

/-! ## NodeWrapper (source lines 47-244)

The node wrapper renders the node container div and the custom node
component.  The data payload is a type parameter; dataToAttribute,
whose implementation lives outside the sampled slice, is an arbitrary
serialization function passed as an argument.  Props feeding only the
drag and resize hooks (resizeObserver, noDragClassName,
selectNodesOnDrag) are elided; the dragging flag produced by useDrag is
an explicit argument. -/

/-- Handle facing, one of four compass positions. -/
inductive Position where
  | Top
  | Bottom
  | Left
  | Right
deriving DecidableEq, Repr

structure NodeInternal (α : Type) where
  id : String
  positionX : ℚ
  positionY : ℚ
  data : α
deriving DecidableEq, Repr

structure WrapNodeProps (α : Type) where
  id : String
  nodeType : String
  data : α
  xPos : ℚ
  yPos : ℚ
  xPosOrigin : ℚ
  yPosOrigin : ℚ
  selected : Bool
  userStyle : Option String
  className : Option String
  isDraggable : Bool
  isSelectable : Bool
  isConnectable : Bool
  isFocusable : Bool
  sourcePosition : Position
  targetPosition : Position
  hidden : Bool
  dragHandle : Option String
  zIndex : Int
  isParent : Bool
  noPanClassName : String
  initialized : Bool
  disableKeyboardA11y : Bool
  ariaLabel : Option String
  rfId : String
deriving DecidableEq, Repr

structure NodeComponentProps (α : Type) where
  id : String
  data : α
  nodeType : String
  xPos : ℚ
  yPos : ℚ
  selected : Bool
  isConnectable : Bool
  sourcePosition : Position
  targetPosition : Position
  dragging : Bool
  dragHandle : Option String
  zIndex : Int
deriving DecidableEq, Repr

/-- The rendered output of the node wrapper: the class list, the
computed style fields, the data attributes and the props forwarded to
the custom node component. -/
structure RenderedNode (α : Type) where
  classNames : List String
  zIndex : Int
  translateX : ℚ
  translateY : ℚ
  pointerEventsAll : Bool
  visible : Bool
  userStyle : Option String
  dataId : String
  dataTestId : String
  hasKeyDownHandler : Bool
  tabIndex : Option Int
  role : Option String
  ariaDescribedBy : Option String
  ariaLabel : Option String
  nodeDataAttr : Option String
  elTypeAttr : String
  childProps : NodeComponentProps α
deriving DecidableEq, Repr

/-- The fixed prefix of the aria-describedby id, imported from
A11yDescriptions in the repository; its value is a constant independent
of any node. -/
def ariaNodeDescKey : String := "react-flow__node-desc"

/-- Render function of NodeWrapper (source lines 179-238): returns none
when the node is hidden, otherwise the rendered div and child props.
ser stands for dataToAttribute applied to the store node with the node
element type. -/
def renderNodeWrapper {α : Type} (ser : Option (NodeInternal α) → Option String)
    (props : WrapNodeProps α) (storeNode : Option (NodeInternal α)) (dragging : Bool) :
    Option (RenderedNode α) :=
  if props.hidden then none
  else
    some {
      classNames :=
        ["react-flow__node", "react-flow__node-" ++ props.nodeType]
        ++ (if props.isDraggable then [props.noPanClassName] else [])
        ++ (match props.className with | some c => [c] | none => [])
        ++ (if props.selected then ["selected"] else [])
        ++ (if props.isSelectable then ["selectable"] else [])
        ++ (if props.isParent then ["parent"] else [])
        ++ (if dragging then ["dragging"] else [])
      zIndex := props.zIndex
      translateX := props.xPosOrigin
      translateY := props.yPosOrigin
      pointerEventsAll := props.isSelectable || props.isDraggable
      visible := props.initialized
      userStyle := props.userStyle
      dataId := props.id
      dataTestId := "rf__node-" ++ props.id
      hasKeyDownHandler := props.isFocusable
      tabIndex := if props.isFocusable then some 0 else none
      role := if props.isFocusable then some "button" else none
      ariaDescribedBy :=
        if props.disableKeyboardA11y then none
        else some (ariaNodeDescKey ++ "-" ++ props.rfId)
      ariaLabel := props.ariaLabel
      nodeDataAttr := ser storeNode
      elTypeAttr := "node"
      childProps := {
        id := props.id
        data := props.data
        nodeType := props.nodeType
        xPos := props.xPos
        yPos := props.yPos
        selected := props.selected
        isConnectable := props.isConnectable
        sourcePosition := props.sourcePosition
        targetPosition := props.targetPosition
        dragging := dragging
        dragHandle := props.dragHandle
        zIndex := props.zIndex } }

def WrapNodeProps.mapData {α β : Type} (f : α → β) (p : WrapNodeProps α) : WrapNodeProps β :=
  { id := p.id, nodeType := p.nodeType, data := f p.data, xPos := p.xPos, yPos := p.yPos
    xPosOrigin := p.xPosOrigin, yPosOrigin := p.yPosOrigin, selected := p.selected
    userStyle := p.userStyle, className := p.className, isDraggable := p.isDraggable
    isSelectable := p.isSelectable, isConnectable := p.isConnectable
    isFocusable := p.isFocusable, sourcePosition := p.sourcePosition
    targetPosition := p.targetPosition, hidden := p.hidden, dragHandle := p.dragHandle
    zIndex := p.zIndex, isParent := p.isParent, noPanClassName := p.noPanClassName
    initialized := p.initialized, disableKeyboardA11y := p.disableKeyboardA11y
    ariaLabel := p.ariaLabel, rfId := p.rfId }

def NodeInternal.mapData {α β : Type} (f : α → β) (n : NodeInternal α) : NodeInternal β :=
  { id := n.id, positionX := n.positionX, positionY := n.positionY, data := f n.data }

def NodeComponentProps.mapData {α β : Type} (f : α → β) (p : NodeComponentProps α) :
    NodeComponentProps β :=
  { id := p.id, data := f p.data, nodeType := p.nodeType, xPos := p.xPos, yPos := p.yPos
    selected := p.selected, isConnectable := p.isConnectable
    sourcePosition := p.sourcePosition, targetPosition := p.targetPosition
    dragging := p.dragging, dragHandle := p.dragHandle, zIndex := p.zIndex }

/-- Erase every data-dependent part of the rendered output: the
forwarded data prop and the serialized node attribute. -/
def eraseRendered {α : Type} (r : RenderedNode α) : RenderedNode Unit :=
  { classNames := r.classNames, zIndex := r.zIndex, translateX := r.translateX
    translateY := r.translateY, pointerEventsAll := r.pointerEventsAll
    visible := r.visible, userStyle := r.userStyle, dataId := r.dataId
    dataTestId := r.dataTestId, hasKeyDownHandler := r.hasKeyDownHandler
    tabIndex := r.tabIndex, role := r.role, ariaDescribedBy := r.ariaDescribedBy
    ariaLabel := r.ariaLabel, nodeDataAttr := none, elTypeAttr := r.elTypeAttr
    childProps := r.childProps.mapData fun _ => () }

/-- C4: the core never inspects or branches on the opaque data payload.
Two runs of the node wrapper on props and store nodes that agree on
everything except the data value produce rendered outputs that are
equal after erasing the forwarded data prop and the serialized node
attribute; in particular they take the same control path (hidden or
rendered) and agree on every class name, style field, attribute and
forwarded prop that is not the data value itself. -/
theorem nodeWrapper_data_opaque {α β : Type}
    (ser1 : Option (NodeInternal α) → Option String)
    (ser2 : Option (NodeInternal β) → Option String)
    (p1 : WrapNodeProps α) (p2 : WrapNodeProps β)
    (n1 : Option (NodeInternal α)) (n2 : Option (NodeInternal β)) (dragging : Bool)
    (hp : p1.mapData (fun _ => ()) = p2.mapData (fun _ => ()))
    (_hn : n1.map (NodeInternal.mapData fun _ => ()) = n2.map (NodeInternal.mapData fun _ => ())) :
    (renderNodeWrapper ser1 p1 n1 dragging).map eraseRendered =
      (renderNodeWrapper ser2 p2 n2 dragging).map eraseRendered := by
  clear _hn
  obtain ⟨a1, a2, a3, a4, a5, a6, a7, a8, a9, a10, a11, a12, a13, a14, a15, a16, a17, a18,
    a19, a20, a21, a22, a23, a24, a25⟩ := p1
  obtain ⟨b1, b2, b3, b4, b5, b6, b7, b8, b9, b10, b11, b12, b13, b14, b15, b16, b17, b18,
    b19, b20, b21, b22, b23, b24, b25⟩ := p2
  simp only [WrapNodeProps.mapData, WrapNodeProps.mk.injEq] at hp
  obtain ⟨rfl, rfl, -, rfl, rfl, rfl, rfl, rfl, rfl, rfl, rfl, rfl, rfl, rfl, rfl, rfl,
    h17, rfl, rfl, rfl, rfl, rfl, rfl, rfl, rfl⟩ := hp
  cases h17
  cases a17 <;> rfl

def c4PropsA : WrapNodeProps Nat :=
  { id := "n1", nodeType := "default", data := 5, xPos := 1, yPos := 2, xPosOrigin := 3
    yPosOrigin := 4, selected := true, userStyle := none, className := none
    isDraggable := true, isSelectable := true, isConnectable := true, isFocusable := true
    sourcePosition := Position.Top, targetPosition := Position.Bottom, hidden := false
    dragHandle := none, zIndex := 0, isParent := false, noPanClassName := "nopan"
    initialized := true, disableKeyboardA11y := false, ariaLabel := none, rfId := "1" }

def c4PropsB : WrapNodeProps Bool :=
  { id := "n1", nodeType := "default", data := true, xPos := 1, yPos := 2, xPosOrigin := 3
    yPosOrigin := 4, selected := true, userStyle := none, className := none
    isDraggable := true, isSelectable := true, isConnectable := true, isFocusable := true
    sourcePosition := Position.Top, targetPosition := Position.Bottom, hidden := false
    dragHandle := none, zIndex := 0, isParent := false, noPanClassName := "nopan"
    initialized := true, disableKeyboardA11y := false, ariaLabel := none, rfId := "1" }

def c4NodeA : NodeInternal Nat := { id := "n1", positionX := 1, positionY := 2, data := 5 }

def c4NodeB : NodeInternal Bool := { id := "n1", positionX := 1, positionY := 2, data := true }

/-- C4 witness: concrete runs differing only in the data payload (and
in the serializer) yield equal erased outputs. -/
theorem nodeWrapper_data_opaque_witness :
    (c4PropsA.mapData (fun _ => ()) = c4PropsB.mapData (fun _ => ()) ∧
      (some c4NodeA).map (NodeInternal.mapData fun _ => ()) =
        (some c4NodeB).map (NodeInternal.mapData fun _ => ())) ∧
    (renderNodeWrapper (fun _ => some "serA") c4PropsA (some c4NodeA) false).map eraseRendered =
      (renderNodeWrapper (fun _ => none) c4PropsB (some c4NodeB) false).map eraseRendered :=
  ⟨⟨rfl, rfl⟩, nodeWrapper_data_opaque _ _ _ _ _ _ false rfl rfl⟩

/-! ## Keyboard accessibility of the node wrapper (source lines 60-138) -/

/-- arrowKeyDiffs (source lines 60-65), as the lookup the source record
denotes: the unit position delta of each arrow key, none for any other
key. -/
def arrowKeyDiffs (key : String) : Option (Int × Int) :=
  if key = "ArrowUp" then some (0, -1)
  else if key = "ArrowDown" then some (0, 1)
  else if key = "ArrowLeft" then some (-1, 0)
  else if key = "ArrowRight" then some (1, 0)
  else none

/-- What the onKeyDown handler does: nothing, a selection click
(handleNodeClick, possibly unselecting), or a position update with a
delta.  The aria-live message update accompanying a move concerns the
excluded accessibility-text collaborator and is elided. -/
inductive KeyAction where
  | noAction
  | selectClick (unselect : Bool)
  | move (dx dy : Int) (shift : Bool)
deriving DecidableEq, Repr

/-- onKeyDown of NodeWrapper (source lines 106-138).  selKeys stands
for elementSelectionKeys, imported from utils outside the sampled
slice; isInput stands for isInputDOMNode(event). -/
def onKeyDown (selKeys : List String) (isInput : Bool) (key : String) (shift : Bool)
    (isSelectable disableKeyboardA11y isDraggable selected : Bool) : KeyAction :=
  if isInput then KeyAction.noAction
  else if selKeys.contains key && isSelectable then KeyAction.selectClick (key == "Escape")
  else if !disableKeyboardA11y && isDraggable && selected && (arrowKeyDiffs key).isSome then
    match arrowKeyDiffs key with
    | some (dx, dy) => KeyAction.move dx dy shift
    | none => KeyAction.noAction
  else KeyAction.noAction

/-- Source clamp utility: clamp v into the interval from lo to hi. -/
def clamp (v lo hi : ℚ) : ℚ := min (max v lo) hi

/-- A node as the store update operation sees it. -/
structure StoreNode where
  id : String
  x : ℚ
  y : ℚ
  selected : Bool
  draggable : Bool
  dragging : Bool
  extent : Option ((ℚ × ℚ) × (ℚ × ℚ))
deriving DecidableEq, Repr

/-- Modelled from the spec: the per-node action of updateNodePositions.
A node that is the currently dragged node, or is selected and
draggable, receives the position delta, clamped to its extent when one
is set; every other node is untouched. -/
def moveNode (dx dy : ℚ) (dragging : Bool) (n : StoreNode) : StoreNode :=
  if n.dragging || (n.selected && n.draggable) then
    { n with
      x := match n.extent with
        | some ((lox, _), (hix, _)) => clamp (n.x + dx) lox hix
        | none => n.x + dx
      y := match n.extent with
        | some ((_, loy), (_, hiy)) => clamp (n.y + dy) loy hiy
        | none => n.y + dy
      dragging := dragging }
  else n

/-- Modelled from the spec: updateNodePositions of the GraphStore, whose
implementation is not part of the sampled slice.  It applies the same
position delta to the currently dragged node and to every other
selected draggable node, clamping each resulting position to the node
extent, and records the dragging flag. -/
def updateNodePositions (nodes : List StoreNode) (dx dy : ℚ) (dragging : Bool) :
    List StoreNode :=
  nodes.map (moveNode dx dy dragging)

/-- C5: pressing an arrow key on a selected draggable node with
keyboard accessibility enabled, focus outside an input element, and the
key not among the element selection keys, invokes the position update
with exactly the unit delta of that direction (ArrowUp (0,-1),
ArrowDown (0,1), ArrowLeft (-1,0), ArrowRight (1,0)); no other key
produces a position delta; and updateNodePositions applies the delta
identically to the dragged node and to every selected draggable node
(exactly, whenever the node has no extent to clamp to). -/
theorem arrow_keys_move_selected_nodes (selKeys : List String) (shift : Bool)
    (isSelectable : Bool) (key : String)
    (hkey : selKeys.contains key = false) :
    (arrowKeyDiffs "ArrowUp" = some (0, -1) ∧ arrowKeyDiffs "ArrowDown" = some (0, 1) ∧
      arrowKeyDiffs "ArrowLeft" = some (-1, 0) ∧ arrowKeyDiffs "ArrowRight" = some (1, 0)) ∧
    (∀ dx dy, arrowKeyDiffs key = some (dx, dy) →
      onKeyDown selKeys false key shift isSelectable false true true =
        KeyAction.move dx dy shift) ∧
    (∀ isInput isSel dis isDrag sel dx dy s,
      onKeyDown selKeys isInput key shift isSel dis isDrag sel = KeyAction.move dx dy s →
        arrowKeyDiffs key = some (dx, dy)) ∧
    (∀ (dx dy : ℚ) (dragging : Bool) (nodes : List StoreNode),
      updateNodePositions nodes dx dy dragging = nodes.map (moveNode dx dy dragging)) ∧
    (∀ (dx dy : ℚ) (dragging : Bool) (n : StoreNode), n.extent = none →
      (n.dragging = true ∨ (n.selected = true ∧ n.draggable = true)) →
      (moveNode dx dy dragging n).x = n.x + dx ∧
        (moveNode dx dy dragging n).y = n.y + dy) := by
  have hkey' : ¬key ∈ selKeys := by simpa using hkey
  refine ⟨⟨rfl, rfl, rfl, rfl⟩, ?_, ?_, fun _ _ _ _ => rfl, ?_⟩
  · intro dx dy hd
    simp [onKeyDown, hkey', hd]
  · intro isInput isSel dis isDrag sel dx dy s h
    unfold onKeyDown at h
    split at h
    · cases h
    · split at h
      · cases h
      · split at h
        · split at h
          · cases h
            assumption
          · cases h
        · cases h
  · intro dx dy dragging n hext hsel
    have hcond : (n.dragging || (n.selected && n.draggable)) = true := by
      rcases hsel with h | ⟨h1, h2⟩
      · simp [h]
      · simp [h1, h2]
    simp [moveNode, hcond, hext]

/-- C5 witness: ArrowRight on a selected draggable node moves it by the
unit delta, applied identically to both selected draggable nodes of a
concrete store. -/
theorem arrow_keys_move_selected_nodes_witness :
    ["Enter", " ", "Escape"].contains "ArrowRight" = false ∧
    (∀ dx dy, arrowKeyDiffs "ArrowRight" = some (dx, dy) →
      onKeyDown ["Enter", " ", "Escape"] false "ArrowRight" false true false true true =
        KeyAction.move dx dy false) := by
  have h := arrow_keys_move_selected_nodes ["Enter", " ", "Escape"] false true "ArrowRight"
    (by decide)
  exact ⟨by decide, h.2.1⟩

/-! ## ReactFlow configuration surface (source lines 712-829 and
933-1030; the old container, lines 342-458, declares the identical
defaults and forwarding)

Each recognized option is an optional prop; destructuring defaults give
the applied values when a prop is omitted, and the resolved values are
forwarded as JSX props to the GraphView and StoreUpdater components. -/

inductive ConnectionMode where
  | Strict
  | Loose
deriving DecidableEq, Repr

inductive SelectionMode where
  | Full
  | Partial
deriving DecidableEq, Repr

/-- One coordinate bound of an extent; the infinite extent uses the
JavaScript infinities. -/
inductive ExtentBound where
  | negInf
  | posInf
  | finite (q : ℚ)
deriving DecidableEq, Repr

/-- A coordinate extent [[x1, y1], [x2, y2]]. -/
structure CoordExtent where
  lo : ExtentBound × ExtentBound
  hi : ExtentBound × ExtentBound
deriving DecidableEq, Repr

/-- Modelled from the spec: infiniteExtent, imported from
store/initialState outside the sampled slice; the extent with both
corners at infinity, the default translate extent. -/
def infiniteExtent : CoordExtent :=
  { lo := (ExtentBound.negInf, ExtentBound.negInf)
    hi := (ExtentBound.posInf, ExtentBound.posInf) }

structure Viewport where
  x : ℚ
  y : ℚ
  zoom : ℚ
deriving DecidableEq, Repr

/-- initDefaultViewport (source lines 290 and 664). -/
def initDefaultViewport : Viewport := { x := 0, y := 0, zoom := 1 }

/-- initSnapGrid (source lines 289 and 663). -/
def initSnapGrid : ℚ × ℚ := (15, 15)

/-- initNodeOrigin (source lines 288 and 662). -/
def initNodeOrigin : ℚ × ℚ := (0, 0)

/-- The recognized configuration options of the ReactFlow props object
(spec section 6); none means the prop was omitted. -/
structure ReactFlowOptProps where
  connectionMode : Option ConnectionMode
  connectionRadius : Option ℚ
  selectionMode : Option SelectionMode
  nodeOrigin : Option (ℚ × ℚ)
  minZoom : Option ℚ
  maxZoom : Option ℚ
  translateExtent : Option CoordExtent
  nodeExtent : Option CoordExtent
  snapToGrid : Option Bool
  snapGrid : Option (ℚ × ℚ)
  defaultViewport : Option Viewport
deriving DecidableEq, Repr

/-- The resolved configuration after the destructuring defaults of the
ReactFlow component (source lines 750-776 resp. 380-406).  nodeExtent
has no default and stays optional. -/
structure ResolvedConfig where
  connectionMode : ConnectionMode
  connectionRadius : ℚ
  selectionMode : SelectionMode
  nodeOrigin : ℚ × ℚ
  minZoom : ℚ
  maxZoom : ℚ
  translateExtent : CoordExtent
  nodeExtent : Option CoordExtent
  snapToGrid : Bool
  snapGrid : ℚ × ℚ
  defaultViewport : Viewport
deriving DecidableEq, Repr

/-- Destructuring defaults of the ReactFlow component for the
recognized options. -/
def resolveProps (p : ReactFlowOptProps) : ResolvedConfig :=
  { connectionMode := p.connectionMode.getD ConnectionMode.Strict
    connectionRadius := p.connectionRadius.getD 20
    selectionMode := p.selectionMode.getD SelectionMode.Full
    nodeOrigin := p.nodeOrigin.getD initNodeOrigin
    minZoom := p.minZoom.getD (1 / 2)
    maxZoom := p.maxZoom.getD 2
    translateExtent := p.translateExtent.getD infiniteExtent
    nodeExtent := p.nodeExtent
    snapToGrid := p.snapToGrid.getD false
    snapGrid := p.snapGrid.getD initSnapGrid
    defaultViewport := p.defaultViewport.getD initDefaultViewport }

/-- The configuration props the ReactFlow JSX passes to the
StoreUpdater component (source lines 983-1030 resp. 559-606). -/
structure StoreUpdaterProps where
  minZoom : ℚ
  maxZoom : ℚ
  nodeExtent : Option CoordExtent
  snapToGrid : Bool
  snapGrid : ℚ × ℚ
  connectionMode : ConnectionMode
  translateExtent : CoordExtent
  nodeOrigin : ℚ × ℚ
  connectionRadius : ℚ
deriving DecidableEq, Repr

/-- The configuration props the ReactFlow JSX passes to the GraphView
component (source lines 928-982 resp. 499-558). -/
structure GraphViewProps where
  selectionMode : SelectionMode
  defaultViewport : Viewport
  translateExtent : CoordExtent
  minZoom : ℚ
  maxZoom : ℚ
  nodeOrigin : ℚ × ℚ
  nodeExtent : Option CoordExtent
deriving DecidableEq, Repr

def storeUpdaterProps (c : ResolvedConfig) : StoreUpdaterProps :=
  { minZoom := c.minZoom, maxZoom := c.maxZoom, nodeExtent := c.nodeExtent
    snapToGrid := c.snapToGrid, snapGrid := c.snapGrid
    connectionMode := c.connectionMode, translateExtent := c.translateExtent
    nodeOrigin := c.nodeOrigin, connectionRadius := c.connectionRadius }

def graphViewProps (c : ResolvedConfig) : GraphViewProps :=
  { selectionMode := c.selectionMode, defaultViewport := c.defaultViewport
    translateExtent := c.translateExtent, minZoom := c.minZoom, maxZoom := c.maxZoom
    nodeOrigin := c.nodeOrigin, nodeExtent := c.nodeExtent }

/-- C7: every recognized option of spec section 6 is accepted as a
ReactFlow prop and forwarded unchanged to the store updater and the
graph view, and the defaults applied when a prop is omitted are
connectionMode Strict, selectionMode Full, connectionRadius 20, minZoom
1/2, maxZoom 2, snapToGrid false, snapGrid (15,15), nodeOrigin (0,0)
and translateExtent the infinite extent (nodeExtent has no default and
is forwarded as given). -/
theorem config_options_forwarded_with_defaults (p : ReactFlowOptProps) :
    (storeUpdaterProps (resolveProps p)).connectionMode =
        p.connectionMode.getD ConnectionMode.Strict ∧
    (storeUpdaterProps (resolveProps p)).connectionRadius = p.connectionRadius.getD 20 ∧
    (graphViewProps (resolveProps p)).selectionMode =
        p.selectionMode.getD SelectionMode.Full ∧
    (storeUpdaterProps (resolveProps p)).nodeOrigin = p.nodeOrigin.getD (0, 0) ∧
    (graphViewProps (resolveProps p)).nodeOrigin = p.nodeOrigin.getD (0, 0) ∧
    (storeUpdaterProps (resolveProps p)).minZoom = p.minZoom.getD (1 / 2) ∧
    (graphViewProps (resolveProps p)).minZoom = p.minZoom.getD (1 / 2) ∧
    (storeUpdaterProps (resolveProps p)).maxZoom = p.maxZoom.getD 2 ∧
    (graphViewProps (resolveProps p)).maxZoom = p.maxZoom.getD 2 ∧
    (storeUpdaterProps (resolveProps p)).translateExtent =
        p.translateExtent.getD infiniteExtent ∧
    (graphViewProps (resolveProps p)).translateExtent =
        p.translateExtent.getD infiniteExtent ∧
    (storeUpdaterProps (resolveProps p)).nodeExtent = p.nodeExtent ∧
    (graphViewProps (resolveProps p)).nodeExtent = p.nodeExtent ∧
    (storeUpdaterProps (resolveProps p)).snapToGrid = p.snapToGrid.getD false ∧
    (storeUpdaterProps (resolveProps p)).snapGrid = p.snapGrid.getD (15, 15) ∧
    (graphViewProps (resolveProps p)).defaultViewport =
        p.defaultViewport.getD initDefaultViewport :=
  ⟨rfl, rfl, rfl, rfl, rfl, rfl, rfl, rfl, rfl, rfl, rfl, rfl, rfl, rfl, rfl, rfl⟩

/-! ## Viewport zoom invariant (C6)

The d3 zoom pane lives in GraphView, outside the sampled slice.  Per
the spec, zoom is bounded to the minZoom / maxZoom interval at all
times after any viewport mutation, so initialization and every
mutation clamp the requested zoom into that interval. -/

/-- Modelled from the spec: the zoom the viewport holds after
initializing from the configured default viewport: the requested zoom
clamped into the configured interval. -/
def initViewportZoom (c : ResolvedConfig) : ℚ :=
  clamp c.defaultViewport.zoom c.minZoom c.maxZoom

/-- Modelled from the spec: the zoom after any viewport mutation
requesting zoom z under the configured bounds. -/
def setViewportZoom (c : ResolvedConfig) (z : ℚ) : ℚ :=
  clamp z c.minZoom c.maxZoom

/-- C6: for every accepted configuration with minZoom at most maxZoom,
the viewport zoom lies within the configured interval at
initialization, including when the supplied defaultViewport zoom lies
outside the interval, and after every viewport mutation; with the
default configuration (minZoom 1/2, maxZoom 2, default viewport zoom
1) the initial zoom is 1, inside the interval. -/
theorem viewport_zoom_bounded (p : ReactFlowOptProps)
    (h : (resolveProps p).minZoom ≤ (resolveProps p).maxZoom) :
    ((resolveProps p).minZoom ≤ initViewportZoom (resolveProps p) ∧
      initViewportZoom (resolveProps p) ≤ (resolveProps p).maxZoom) ∧
    (∀ z, (resolveProps p).minZoom ≤ setViewportZoom (resolveProps p) z ∧
      setViewportZoom (resolveProps p) z ≤ (resolveProps p).maxZoom) ∧
    (p.minZoom = none → p.maxZoom = none → p.defaultViewport = none →
      initViewportZoom (resolveProps p) = 1 ∧ (resolveProps p).minZoom = 1 / 2 ∧
        (resolveProps p).maxZoom = 2) := by
  refine ⟨?_, fun z => ?_, fun h1 h2 h3 => ?_⟩
  · constructor
    · exact le_min (le_max_right _ _) h
    · exact min_le_right _ _
  · constructor
    · exact le_min (le_max_right _ _) h
    · exact min_le_right _ _
  · refine ⟨?_, ?_, ?_⟩
    · simp [initViewportZoom, resolveProps, h1, h2, h3, clamp, initDefaultViewport]
      norm_num
    · simp [resolveProps, h1]
    · simp [resolveProps, h2]

/-- C6 witness: a defaultViewport with zoom 5 under the default bounds
initializes to zoom 2, not 5, and the default configuration
initializes to zoom 1. -/
theorem viewport_zoom_bounded_witness :
    (resolveProps ⟨none, none, none, none, none, none, none, none, none, none,
        some ⟨0, 0, 5⟩⟩).minZoom ≤
      (resolveProps ⟨none, none, none, none, none, none, none, none, none, none,
        some ⟨0, 0, 5⟩⟩).maxZoom ∧
    initViewportZoom (resolveProps ⟨none, none, none, none, none, none, none, none, none,
        none, some ⟨0, 0, 5⟩⟩) = 2 ∧
    initViewportZoom (resolveProps ⟨none, none, none, none, none, none, none, none, none,
        none, none⟩) = 1 := by
  refine ⟨by norm_num [resolveProps], ?_, ?_⟩
  · have h := viewport_zoom_bounded
      ⟨none, none, none, none, none, none, none, none, none, none, some ⟨0, 0, 5⟩⟩
      (by norm_num [resolveProps])
    have h2 := h.1.2
    have h1 : initViewportZoom (resolveProps ⟨none, none, none, none, none, none, none,
        none, none, none, some ⟨0, 0, 5⟩⟩) = 2 := by
      norm_num [initViewportZoom, resolveProps, clamp]
    exact h1
  · have h := (viewport_zoom_bounded
      ⟨none, none, none, none, none, none, none, none, none, none, none⟩
      (by norm_num [resolveProps])).2.2 rfl rfl rfl
    exact h.1

/-! ## Dimension updates (C8)

updateNodeDimensions lives in the GraphStore outside the sampled
slice; the node wrapper (source line 165) calls it with the measured
element and a forceUpdate flag when a node type or handle position
changes.  Per spec sections 4.1 and 4.2 the operation is an idempotent
upsert of measured width and height per node id that triggers
parent-expansion when a child bounding box now exceeds the measured
box of its parent, recursively up the ancestor chain. -/

/-- A dimension report delivered for one node id; forceUpdate marks the
re-initialization reports the node wrapper sends when the node type or
a handle position changes. -/
structure DimensionUpdate where
  id : String
  width : ℚ
  height : ℚ
  forceUpdate : Bool
deriving DecidableEq, Repr

/-- Modelled from the spec: the node hierarchy the store operates on,
as a forest.  The parentId references of the data model are resolved
into child subtrees; reconciliation (spec section 9) detects parentId
cycles and detaches the offending node, so store operations see an
acyclic hierarchy.  Each node carries its position (relative to its
parent), its fractional origin, and its measured dimensions, absent
until reported. -/
inductive DimTree where
  | node (id : String) (x y originX originY : ℚ) (width height : Option ℚ)
      (children : List DimTree)

/-- Modelled from the spec: the bounding box of a measured child in the
coordinate frame of its parent, from its position and measured size,
using its origin; none while the child has no measurement (such nodes
are tolerated and excluded, spec section 5).  The box is
(left, top, right, bottom). -/
def childBox : DimTree → Option (ℚ × ℚ × ℚ × ℚ)
  | DimTree.node _ x y ox oy w h _ =>
    match w, h with
    | some cw, some ch =>
      some (x - ox * cw, y - oy * ch, x - ox * cw + cw, y - oy * ch + ch)
    | _, _ => none

/-- The boxes of the measured immediate children. -/
def kidBoxes (kids : List DimTree) : List (ℚ × ℚ × ℚ × ℚ) := kids.filterMap childBox

/-- Whether a child box fits within the measured box of its parent,
which spans (0,0) to (pw,ph) in the parent frame. -/
def fitsIn (b : ℚ × ℚ × ℚ × ℚ) (pw ph : ℚ) : Bool :=
  decide (0 ≤ b.1) && decide (0 ≤ b.2.1) && decide (b.2.2.1 ≤ pw) && decide (b.2.2.2 ≤ ph)

def maxRight (boxes : List (ℚ × ℚ × ℚ × ℚ)) : ℚ :=
  boxes.foldr (fun b acc => max b.2.2.1 acc) 0

def maxBottom (boxes : List (ℚ × ℚ × ℚ × ℚ)) : ℚ :=
  boxes.foldr (fun b acc => max b.2.2.2 acc) 0

/-- The fixed margin of the parent-expansion rule (spec section 4.2);
the padding is attached to the children boxes, so an already expanded
parent is not enlarged again by a repeated identical report. -/
def expandMargin : ℚ := 10

/-- Modelled from the spec: the dimensions of a parent after the
parent-expansion check against its (already expanded) immediate
children.  When the parent is measured and some measured child box
does not fit within its measured box, a synthetic dimensions change
enlarges it to the smallest box containing the union of its own
current box and all immediate children boxes plus the fixed margin;
otherwise the dimensions are unchanged. -/
def expandDims (w h : Option ℚ) (kids : List DimTree) : Option ℚ × Option ℚ :=
  match w, h with
  | some pw, some ph =>
    if (kidBoxes kids).any (fun b => !fitsIn b pw ph) then
      (some (max pw (maxRight (kidBoxes kids) + expandMargin)),
        some (max ph (maxBottom (kidBoxes kids) + expandMargin)))
    else (some pw, some ph)
  | _, _ => (w, h)

mutual

/-- Modelled from the spec: parent-expansion over a subtree, bottom-up,
so that a dimensions change on a node propagates recursively to its
ancestors through their own expansion checks. -/
def expandT : DimTree → DimTree
  | DimTree.node i x y ox oy w h kids =>
    DimTree.node i x y ox oy (expandDims w h (expandF kids)).1
      (expandDims w h (expandF kids)).2 (expandF kids)

/-- Parent-expansion over a forest. -/
def expandF : List DimTree → List DimTree
  | [] => []
  | t :: ts => expandT t :: expandF ts

end

mutual

/-- Modelled from the spec: the per-id upsert of measured width and
height over a subtree.  A node mentioned in the batch receives the
reported measurement (the forceUpdate flag only forces downstream
re-rendering and does not change the stored value); other nodes keep
their dimensions. -/
def upsertT (ms : List DimensionUpdate) : DimTree → DimTree
  | DimTree.node i x y ox oy w h kids =>
    match ms.find? (fun m => m.id == i) with
    | some m => DimTree.node i x y ox oy (some m.width) (some m.height) (upsertF ms kids)
    | none => DimTree.node i x y ox oy w h (upsertF ms kids)

/-- Upsert over a forest. -/
def upsertF (ms : List DimensionUpdate) : List DimTree → List DimTree
  | [] => []
  | t :: ts => upsertT ms t :: upsertF ms ts

end

/-- Modelled from the spec: updateNodeDimensions of the GraphStore:
upsert the reported measurements per node id, then run the
parent-expansion rule bottom-up over the hierarchy.  Edges are not
touched by dimension reports. -/
def updateNodeDimensions (forest : List DimTree) (ms : List DimensionUpdate) :
    List DimTree :=
  expandF (upsertF ms forest)

theorem expandDims_idem (w h : Option ℚ) (kids : List DimTree) :
    expandDims (expandDims w h kids).1 (expandDims w h kids).2 kids =
      expandDims w h kids := by
  cases w with
  | none => cases h <;> rfl
  | some pw =>
    cases h with
    | none => rfl
    | some ph =>
      simp only [expandDims]
      by_cases hb : (kidBoxes kids).any (fun b => !fitsIn b pw ph) = true
      · rw [if_pos hb]
        simp only
        by_cases hb2 : (kidBoxes kids).any (fun b =>
            !fitsIn b (max pw (maxRight (kidBoxes kids) + expandMargin))
              (max ph (maxBottom (kidBoxes kids) + expandMargin))) = true
        · rw [if_pos hb2]
          rw [max_eq_left (le_max_right pw (maxRight (kidBoxes kids) + expandMargin))]
          rw [max_eq_left (le_max_right ph (maxBottom (kidBoxes kids) + expandMargin))]
        · rw [if_neg hb2]
      · rw [if_neg hb]
        simp only [expandDims]
        rw [if_neg hb]

mutual

theorem expand_upsert_idem_t (ms : List DimensionUpdate) (t : DimTree) :
    expandT (upsertT ms (expandT (upsertT ms t))) = expandT (upsertT ms t) := by
  cases t with
  | node i x y ox oy w h kids =>
    have hf := expand_upsert_idem_f ms kids
    cases hfind : ms.find? (fun m => m.id == i) with
    | none =>
      simp only [upsertT, hfind, expandT]
      rw [hf, expandDims_idem]
    | some m =>
      simp only [upsertT, hfind, expandT]
      rw [hf]

theorem expand_upsert_idem_f (ms : List DimensionUpdate) (ts : List DimTree) :
    expandF (upsertF ms (expandF (upsertF ms ts))) = expandF (upsertF ms ts) := by
  cases ts with
  | nil => rfl
  | cons t ts2 =>
    simp only [upsertF, expandF]
    rw [expand_upsert_idem_t ms t, expand_upsert_idem_f ms ts2]

end

/-- C8: updateNodeDimensions is idempotent: reporting the same batch of
measurements twice in succession (including forced re-initialization
reports) leaves the node state, parent-expansion included, value-equal
to the state after reporting it once: the second identical report
re-upserts the same measurements and the expansion checks reproduce
exactly the already expanded dimensions on every ancestor. -/
theorem updateNodeDimensions_idempotent (forest : List DimTree)
    (ms : List DimensionUpdate) :
    updateNodeDimensions (updateNodeDimensions forest ms) ms =
      updateNodeDimensions forest ms :=
  expand_upsert_idem_f ms forest

/-! ## Edge routers (C9, C10)

The routing functions getStraightPath, getSmoothStepPath,
getBezierPath and getSimpleBezierPath are exported by the package index
(source lines 4-8) but implemented outside the sampled slice; they are
modelled from spec section 4.3. -/

structure Pt where
  x : ℚ
  y : ℚ
deriving DecidableEq, Repr

def isHorizontal : Position → Bool
  | Position.Left => true
  | Position.Right => true
  | Position.Top => false
  | Position.Bottom => false

def oppositeOf : Position → Position
  | Position.Left => Position.Right
  | Position.Right => Position.Left
  | Position.Top => Position.Bottom
  | Position.Bottom => Position.Top

/-- Length of an axis-aligned path segment. -/
def segLen (a b : Pt) : ℚ := |b.x - a.x| + |b.y - a.y|

def pathLen : List Pt → ℚ
  | a :: b :: rest => segLen a b + pathLen (b :: rest)
  | _ => 0

/-- The point at distance d along the segment from a to b. -/
def pointAlong (a b : Pt) (d : ℚ) : Pt :=
  let len := segLen a b
  if len = 0 then b
  else { x := a.x + (b.x - a.x) * d / len, y := a.y + (b.y - a.y) * d / len }

/-- The point at arc-length distance d along a polyline. -/
def pointAt : List Pt → ℚ → Pt
  | [], _ => { x := 0, y := 0 }
  | [p], _ => p
  | a :: b :: rest, d =>
    if d ≤ segLen a b then pointAlong a b d else pointAt (b :: rest) (d - segLen a b)

/-- The path midpoint by arc length, the default label anchor of the
orthogonal routers. -/
def pathMidpoint (pts : List Pt) : Pt := pointAt pts (pathLen pts / 2)

/-- Modelled from the spec: the orthogonal routing decision table of
the step and smoothstep routers, keyed by the source and target
facings.  The path departs and arrives along each facing: two bends
routed beyond the outermost handle when both facings agree, zero or
two bends through the middle when they are opposed, one corner bend
when they are perpendicular; when both handles face the same direction
and are exactly aligned on the perpendicular axis the path collapses
to the single straight segment from source to target. -/
def getStepPoints (s : Pt) (sp : Position) (t : Pt) (tp : Position) : List Pt :=
  if sp = tp then
    if isHorizontal sp then
      if s.y = t.y then [s, t]
      else
        let m := if sp = Position.Right then max s.x t.x else min s.x t.x
        [s, { x := m, y := s.y }, { x := m, y := t.y }, t]
    else
      if s.x = t.x then [s, t]
      else
        let m := if sp = Position.Bottom then max s.y t.y else min s.y t.y
        [s, { x := s.x, y := m }, { x := t.x, y := m }, t]
  else if sp = oppositeOf tp then
    if isHorizontal sp then
      if s.y = t.y then [s, t]
      else
        let m := (s.x + t.x) / 2
        [s, { x := m, y := s.y }, { x := m, y := t.y }, t]
    else
      if s.x = t.x then [s, t]
      else
        let m := (s.y + t.y) / 2
        [s, { x := s.x, y := m }, { x := t.x, y := m }, t]
  else
    if isHorizontal sp then [s, { x := t.x, y := s.y }, t]
    else [s, { x := s.x, y := t.y }, t]

/-- Modelled from the spec: getSmoothStepPath returns the orthogonal
path points and the label anchor at the path midpoint by arc length.
The border radius only rounds the bends of the rendered path string
(radius 0 degenerates to the step edge) and does not move the points
or the anchor. -/
def getSmoothStepPath (s : Pt) (sp : Position) (t : Pt) (tp : Position)
    (_borderRadius : ℚ) : List Pt × Pt :=
  let pts := getStepPoints s sp t tp
  (pts, pathMidpoint pts)

/-- Modelled from the spec: getStraightPath, the direct segment with
the label at its midpoint. -/
def getStraightPath (s t : Pt) : List Pt × Pt :=
  ([s, t], { x := (s.x + t.x) / 2, y := (s.y + t.y) / 2 })

/-- Deterministic rational square-root approximation standing in for
Math.sqrt in the control-offset scale. -/
def qsqrt (q : ℚ) : ℚ := (Nat.sqrt (q.num.toNat * q.den) : ℚ) / (q.den : ℚ)

/-- Straight-line distance between two points. -/
def ptDist (a b : Pt) : ℚ := qsqrt ((b.x - a.x) ^ 2 + (b.y - a.y) ^ 2)

def dirOf : Position → ℚ × ℚ
  | Position.Top => (0, -1)
  | Position.Bottom => (0, 1)
  | Position.Left => (-1, 0)
  | Position.Right => (1, 0)

/-- Modelled from the spec: a bezier control point, offset from its
handle along the facing direction by a distance scaled by the
curvature factor and by the straight-line distance between the two
endpoints. -/
def bezierControl (p : Pt) (pos : Position) (other : Pt) (curvature : ℚ) : Pt :=
  let d := ptDist p other
  let dir := dirOf pos
  { x := p.x + dir.1 * curvature * d, y := p.y + dir.2 * curvature * d }

/-- The point of a cubic bezier at parameter one half, used as the
label anchor. -/
def cubicMidpoint (a c1 c2 b : Pt) : Pt :=
  { x := (a.x + 3 * c1.x + 3 * c2.x + b.x) / 8
    y := (a.y + 3 * c1.y + 3 * c2.y + b.y) / 8 }

/-- Modelled from the spec: getBezierPath, the default curved router;
control points are offset from each handle along its facing
direction. -/
def getBezierPath (s : Pt) (sp : Position) (t : Pt) (tp : Position) (curvature : ℚ) :
    (Pt × Pt × Pt × Pt) × Pt :=
  let c1 := bezierControl s sp t curvature
  let c2 := bezierControl t tp s curvature
  ((s, c1, c2, t), cubicMidpoint s c1 c2 t)

/-- Modelled from the spec: getSimpleBezierPath computes both control
points from the two endpoints directly, ignoring facing directions,
via a symmetric formula. -/
def getSimpleBezierPath (s t : Pt) : (Pt × Pt × Pt × Pt) × Pt :=
  let cx := (s.x + t.x) / 2
  let c1 := { x := cx, y := s.y : Pt }
  let c2 := { x := cx, y := t.y : Pt }
  ((s, c1, c2, t), cubicMidpoint s c1 c2 t)

/-- One routing call with its full input. -/
inductive RouterInput where
  | straight (s t : Pt)
  | step (s : Pt) (sp : Position) (t : Pt) (tp : Position)
  | smoothstep (s : Pt) (sp : Position) (t : Pt) (tp : Position) (borderRadius : ℚ)
  | bezier (s : Pt) (sp : Position) (t : Pt) (tp : Position) (curvature : ℚ)
  | simpleBezier (s t : Pt)
deriving DecidableEq, Repr

/-- A routing result: the path description and the label anchor. -/
inductive RouterOutput where
  | poly (pts : List Pt) (label : Pt)
  | curve (c : Pt × Pt × Pt × Pt) (label : Pt)
deriving DecidableEq, Repr

/-- Dispatch a routing call to the corresponding routing function. -/
def routeEdge : RouterInput → RouterOutput
  | RouterInput.straight s t =>
    let r := getStraightPath s t
    RouterOutput.poly r.1 r.2
  | RouterInput.step s sp t tp =>
    let r := getSmoothStepPath s sp t tp 0
    RouterOutput.poly r.1 r.2
  | RouterInput.smoothstep s sp t tp br =>
    let r := getSmoothStepPath s sp t tp br
    RouterOutput.poly r.1 r.2
  | RouterInput.bezier s sp t tp c =>
    let r := getBezierPath s sp t tp c
    RouterOutput.curve r.1 r.2
  | RouterInput.simpleBezier s t =>
    let r := getSimpleBezierPath s t
    RouterOutput.curve r.1 r.2

/-- A sequence of routing calls, answered in order. -/
def runRouter (calls : List RouterInput) : List RouterOutput := calls.map routeEdge

/-- C9: when both handles face the same direction and are exactly
aligned on the perpendicular axis, the step and smoothstep router
returns the single straight segment from source to target, not a
self-intersecting loop; in particular for horizontal facings with
equal y the segment is horizontal. -/
theorem step_router_same_direction_aligned (p : Position) (s t : Pt) (r : ℚ)
    (h : (isHorizontal p = true ∧ s.y = t.y) ∨ (isHorizontal p = false ∧ s.x = t.x)) :
    getStepPoints s p t p = [s, t] ∧ (getSmoothStepPath s p t p r).1 = [s, t] := by
  have hpts : getStepPoints s p t p = [s, t] := by
    cases p <;> rcases h with ⟨h1, h2⟩ | ⟨h1, h2⟩ <;>
      simp_all [getStepPoints, isHorizontal]
  exact ⟨hpts, by simp [getSmoothStepPath, hpts]⟩

/-- C9 witness: source facing Right at (0,50) and target facing Right
at (200,50) route as the single straight horizontal segment. -/
theorem step_router_same_direction_aligned_witness :
    ((isHorizontal Position.Right = true ∧ (⟨0, 50⟩ : Pt).y = (⟨200, 50⟩ : Pt).y) ∨
      (isHorizontal Position.Right = false ∧ (⟨0, 50⟩ : Pt).x = (⟨200, 50⟩ : Pt).x)) ∧
    getStepPoints ⟨0, 50⟩ Position.Right ⟨200, 50⟩ Position.Right = [⟨0, 50⟩, ⟨200, 50⟩] ∧
    (getSmoothStepPath ⟨0, 50⟩ Position.Right ⟨200, 50⟩ Position.Right 5).1 =
      [⟨0, 50⟩, ⟨200, 50⟩] :=
  ⟨Or.inl ⟨rfl, rfl⟩,
    step_router_same_direction_aligned Position.Right ⟨0, 50⟩ ⟨200, 50⟩ 5
      (Or.inl ⟨rfl, rfl⟩)⟩

/-- C10: every edge routing function is deterministic and free of
hidden state: in any sequence of routing calls, the answer to a call
is routeEdge of its input alone, so two calls with identical inputs
receive identical path descriptions and label anchors regardless of
their position in the sequence and of all prior calls. -/
theorem routers_referentially_transparent
    (pre1 post1 pre2 post2 : List RouterInput) (i : RouterInput) :
    (runRouter (pre1 ++ i :: post1))[pre1.length]? = some (routeEdge i) ∧
    (runRouter (pre1 ++ i :: post1))[pre1.length]? =
      (runRouter (pre2 ++ i :: post2))[pre2.length]? := by
  have key : ∀ (pre post : List RouterInput),
      (runRouter (pre ++ i :: post))[pre.length]? = some (routeEdge i) := by
    intro pre post
    induction pre with
    | nil => simp [runRouter]
    | cons a l ih => simpa [runRouter] using ih
  exact ⟨key pre1 post1, by rw [key pre1 post1, key pre2 post2]⟩

end XYFlow
